import Mathlib

/-
Verification of ProtoCaller (src/ProtoCaller/Wrappers/biosimspacewrapper.py
and src/ProtoCaller/Parametrise/amber.py) against its natural-language
specification.

The BioSimSpace/Sire object graph is shallowly embedded: molecules, atoms and
their per-property values become Lean structures with `Option` fields for the
properties that the Python code looks up inside try/except blocks (a missing
property is `none`; the except-branch "silently skip" becomes `Option.map`).
Numeric parameters are modelled as exact rationals.  In-place mutation of the
input system (`mol._sire_object = mol_edit.commit()`) is modelled by explicit
state passing: each rescaling function returns both the freshly built system
and the input system as it stands after the per-molecule commits.
-/

/-- The Python built-in `round` (round half to even) on an exact rational,
used for `round(sum(...))` in `rescaleSystemParams` (line 116). -/
def pyRound (q : ℚ) : ℤ :=
  let f : ℤ := ⌊q⌋
  let r : ℚ := q - f
  if r < 1/2 then f
  else if 1/2 < r then f + 1
  else if f % 2 = 0 then f else f + 1

/-- The Python `max` over a list (the list is nonempty in all uses;
`max(box_length_new)` at biosimspacewrapper.py line 52). -/
def pyMax : List ℚ → ℚ
  | [] => 0
  | h :: t => t.foldl max h

/-- The Python `str.lower`, modelled for the ASCII strings appearing in
molecule names and file extensions. -/
def lowerChar (c : Char) : Char :=
  if 'A' ≤ c ∧ c ≤ 'Z' then Char.ofNat (c.toNat + 32) else c

/-- Lowercasing of a whole string (`.lower()` at lines 125-127, 179 of
biosimspacewrapper.py and the extension comparisons of amber.py). -/
def pyLower (s : String) : String :=
  String.mk (s.data.map lowerChar)

/-- Lennard-Jones parameter pair, as held by a Sire `LJParameter`
(`LJ.sigma()`, `LJ.epsilon()`). -/
structure LJParam where
  sigma : ℚ
  epsilon : ℚ
deriving DecidableEq

/-- One potential of a Sire `FourAtomFunctions` container (a dihedral or
improper term): the four atom indices and the potential function.  The
function is only ever multiplied by a scalar (line 147), so it is modelled
by its coefficient. -/
structure FourAtomPotential where
  atom0 : Nat
  atom1 : Nat
  atom2 : Nat
  atom3 : Nat
  func : ℚ
deriving DecidableEq

/-- One potential of the `bond0`/`bond1` `TwoAtomFunctions` container.
`rescaleBondedDummies` parses the function string "k [r - r_eq]^2" back
into the pair (k, r_eq) (lines 263-264), so the harmonic function is
modelled by exactly that pair. -/
structure BondPotential where
  atom0 : Nat
  atom1 : Nat
  k : ℚ
  r_eq : ℚ
deriving DecidableEq

/-- An atom of the Sire object graph, with the properties the two rescaling
routines look up.  `Option` marks the properties read inside try/except
blocks; `element0`/`element1` are read without a guard (lines 239-241) and
are modelled by the `toString` of the element property. -/
structure Atom where
  element0 : String
  element1 : String
  atomtype : Option String
  atomtype0 : Option String
  atomtype1 : Option String
  lj : Option LJParam
  lj0 : Option LJParam
  lj1 : Option LJParam
  charge : Option ℚ
  charge0 : Option ℚ
  charge1 : Option ℚ
deriving DecidableEq

/-- A molecule of the system: its Sire name (`mol._sire_object.name().value()`),
the name of its residue (`mol_edit.residue().name()`), its total charge
magnitude (`mol.charge().magnitude()`), its atoms in `AtomIdx` order, the six
dihedral/improper `FourAtomFunctions` properties (guarded lookups, hence
`Option`) and the `bond0`/`bond1` bond containers. -/
structure Molecule where
  name : String
  resname : String
  molCharge : ℚ
  atoms : List Atom
  dihedral : Option (List FourAtomPotential)
  dihedral0 : Option (List FourAtomPotential)
  dihedral1 : Option (List FourAtomPotential)
  improper : Option (List FourAtomPotential)
  improper0 : Option (List FourAtomPotential)
  improper1 : Option (List FourAtomPotential)
  bond0 : List BondPotential
  bond1 : List BondPotential
deriving DecidableEq

/-- A BioSimSpace system: its molecules and its `space` property (the
periodic box, carried over verbatim by both rescaling functions). -/
structure MolSystem where
  molecules : List Molecule
  space : ℚ × ℚ × ℚ
deriving DecidableEq

/-- Scaling of every potential of a `FourAtomFunctions` container:
`prop_new.set(..., potential.function() * scale)` (lines 144-147). -/
def scaleFourAtom (scale : ℚ) (ps : List FourAtomPotential) : List FourAtomPotential :=
  ps.map fun p => { p with func := p.func * scale }

/-- The per-atom edits of `rescaleSystemParams` (lines 152-177): the three
atomtype properties get "_" appended unconditionally; when `scale != 1` the
three LJ properties get epsilon scaled (sigma kept) and the three charge
properties are multiplied by `scale`.  A missing (`none`) property is
skipped. -/
def editAtom (scale : ℚ) (a : Atom) : Atom :=
  let a1 := { a with
    atomtype := a.atomtype.map (fun t => t ++ "_")
    atomtype0 := a.atomtype0.map (fun t => t ++ "_")
    atomtype1 := a.atomtype1.map (fun t => t ++ "_") }
  if scale ≠ 1 then
    { a1 with
      lj := a1.lj.map (fun l => { sigma := l.sigma, epsilon := l.epsilon * scale })
      lj0 := a1.lj0.map (fun l => { sigma := l.sigma, epsilon := l.epsilon * scale })
      lj1 := a1.lj1.map (fun l => { sigma := l.sigma, epsilon := l.epsilon * scale })
      charge := a1.charge.map (fun c => c * scale)
      charge0 := a1.charge0.map (fun c => c * scale)
      charge1 := a1.charge1.map (fun c => c * scale) }
  else a1

/-- The whole-molecule edit of `rescaleSystemParams` (lines 138-182): when
`scale != 1` the six dihedral/improper containers are rescaled (missing ones
skipped), then every atom is edited, then a molecule whose Sire name is
"na"/"cl" case-insensitively has "_" appended to its residue name. -/
def editMolecule (scale : ℚ) (mol : Molecule) : Molecule :=
  let m1 :=
    if scale ≠ 1 then
      { mol with
        dihedral := mol.dihedral.map (scaleFourAtom scale)
        dihedral0 := mol.dihedral0.map (scaleFourAtom scale)
        dihedral1 := mol.dihedral1.map (scaleFourAtom scale)
        improper := mol.improper.map (scaleFourAtom scale)
        improper0 := mol.improper0.map (scaleFourAtom scale)
        improper1 := mol.improper1.map (scaleFourAtom scale) }
    else mol
  let m2 := { m1 with atoms := m1.atoms.map (editAtom scale) }
  if pyLower mol.name = "na" ∨ pyLower mol.name = "cl" then
    { m2 with resname := m2.resname ++ "_" }
  else m2

/-- The molecule loop of `rescaleSystemParams` (lines 124-185), threading the
running `total_charge` used for neutralisation.  A "na" molecule while the
charge is negative (resp. "cl" while positive) adjusts the counter and is
edited; otherwise a molecule in the excludelist (resp. outside the
includelist) is passed through unmodified; every other molecule is edited. -/
def rescaleLoop (scale : ℚ) (incl excl : Option (List String)) (neut : Bool) :
    ℤ → List Molecule → List Molecule
  | _, [] => []
  | tc, mol :: rest =>
    if neut = true ∧ pyLower mol.name = "na" ∧ tc < 0 then
      editMolecule scale mol :: rescaleLoop scale incl excl neut (tc + 1) rest
    else if neut = true ∧ pyLower mol.name = "cl" ∧ 0 < tc then
      editMolecule scale mol :: rescaleLoop scale incl excl neut (tc - 1) rest
    else
      match excl with
      | some l =>
        if mol.name ∈ l then mol :: rescaleLoop scale incl excl neut tc rest
        else editMolecule scale mol :: rescaleLoop scale incl excl neut tc rest
      | none =>
        match incl with
        | some l =>
          if mol.name ∈ l then editMolecule scale mol :: rescaleLoop scale incl excl neut tc rest
          else mol :: rescaleLoop scale incl excl neut tc rest
        | none => editMolecule scale mol :: rescaleLoop scale incl excl neut tc rest

/-- The initial `total_charge` (lines 114-120): the rounded sum of the charges
of the molecules outside the excludelist (resp. inside the includelist). -/
def initialCharge (mols : List Molecule) (incl excl : Option (List String)) : ℤ :=
  match excl, incl with
  | some l, _ => pyRound ((mols.filter (fun m => !l.contains m.name)).map Molecule.molCharge).sum
  | none, some l => pyRound ((mols.filter (fun m => l.contains m.name)).map Molecule.molCharge).sum
  | none, none => 0

/-- `rescaleSystemParams` (lines 87-191).  Raises `ValueError` when both an
includelist and an excludelist are given; defaults the excludelist to
["WAT"] when neither is given.  Returns the pair (new system, input system
after the in-place commits of line 184); both share the molecule list
`mols_mod` and the `space` property of the input system (lines 187-189). -/
def rescaleSystemParams (sys : MolSystem) (scale : ℚ)
    (includelist excludelist : Option (List String)) (neutralise : Bool) :
    Except String (MolSystem × MolSystem) :=
  if includelist.isSome ∧ excludelist.isSome then
    .error "Only one of includelist and excludelist can be set"
  else
    let excl := if includelist.isNone ∧ excludelist.isNone then some ["WAT"] else excludelist
    let tc : ℤ := if neutralise then initialCharge sys.molecules includelist excl else 0
    let mols := rescaleLoop scale includelist excl neutralise tc sys.molecules
    let out : MolSystem := { molecules := mols, space := sys.space }
    .ok (out, out)

/-- Whether the pattern char list occurs at the head of the list. -/
def leadEq : List Char → List Char → Bool
  | [], _ => true
  | _ :: _, [] => false
  | a :: ps, b :: ss => a == b && leadEq ps ss

/-- Whether the pattern char list occurs somewhere in the list. -/
def hasSub (pat : List Char) : List Char → Bool
  | [] => pat.isEmpty
  | c :: rest => leadEq pat (c :: rest) || hasSub pat rest

/-- The Python substring test for the element string:
`"dummy" in atom.property("element0").toString()` (lines 239-241). -/
def isDummyElem (s : String) : Bool :=
  hasSub "dummy".toList s.toList

/-- The indices collected into `dummies0` (lines 237-240): atoms whose
`element0` string contains "dummy"; `i` is the `AtomIdx` of the first atom of
the sublist. -/
def dummyIdxs0 : Nat → List Atom → List Nat
  | _, [] => []
  | i, a :: rest =>
    (if isDummyElem a.element0 then [i] else []) ++ dummyIdxs0 (i + 1) rest

/-- The indices collected into `dummies1` (lines 241-242).  Because the check
on `element1` sits in the elif branch, an atom whose `element0` also contains
"dummy" is never added here. -/
def dummyIdxs1 : Nat → List Atom → List Nat
  | _, [] => []
  | i, a :: rest =>
    (if !isDummyElem a.element0 && isDummyElem a.element1 then [i] else []) ++
      dummyIdxs1 (i + 1) rest

/-- Membership of the unordered index pair {a, b} in the user-supplied bond
list, i.e. `bond_key in bonds_to_incl` with
`bonds_to_incl = {frozenset(x) for x in bonds[mol_name]}` (lines 230, 254). -/
def pairMem (l : List (Nat × Nat)) (a b : Nat) : Bool :=
  l.any fun p => (p.1 == a && p.2 == b) || (p.1 == b && p.2 == a)

/-- The per-potential update of `rescaleBondedDummies` (lines 247-271): a
potential is kept unchanged when the user gave a bond list not containing its
index pair, or when neither of its atoms is in the dummy list; otherwise the
function k [r - r_eq]^2 is replaced following line 269,
k * ((func / k).root(2) + (1 - scale) * r_eq).squared(): on the harmonic
representation the square root returns (r - r_eq), so the new function is
k [r - (r_eq - (1 - scale) * r_eq)]^2. -/
def rescaleBondPot (scale : ℚ) (toIncl : Option (List (Nat × Nat)))
    (ds : List Nat) (p : BondPotential) : BondPotential :=
  if (match toIncl with
      | some l => !pairMem l p.atom0 p.atom1
      | none => false) then p
  else if p.atom0 ∉ ds ∧ p.atom1 ∉ ds then p
  else { p with r_eq := p.r_eq - (1 - scale) * p.r_eq }

/-- The per-molecule edit of `rescaleBondedDummies` (lines 232-272): collect
the two dummy index lists, then rewrite the `bond0` container against
`dummies0` and the `bond1` container against `dummies1`. -/
def editMoleculeBonds (scale : ℚ) (toIncl : Option (List (Nat × Nat)))
    (mol : Molecule) : Molecule :=
  { mol with
    bond0 := mol.bond0.map (rescaleBondPot scale toIncl (dummyIdxs0 0 mol.atoms))
    bond1 := mol.bond1.map (rescaleBondPot scale toIncl (dummyIdxs1 0 mol.atoms)) }

/-- `rescaleBondedDummies` (lines 194-281).  With `scale == 1` the input
system object is returned at once (line 217-218); otherwise every molecule
is edited (a molecule absent from a given bonds dictionary, or mapped to an
empty list, passes through), and the result pair is (new system, input
system after the in-place commits of line 274), sharing the molecule list
and the input `space` property. -/
def rescaleBondedDummies (sys : MolSystem) (scale : ℚ)
    (bonds : Option (List (String × List (Nat × Nat)))) : MolSystem × MolSystem :=
  if scale = 1 then (sys, sys)
  else
    let mols := sys.molecules.map fun mol =>
      match bonds with
      | some b =>
        match b.lookup mol.name with
        | none => mol
        | some [] => mol
        | some (x :: xs) => editMoleculeBonds scale (some (x :: xs)) mol
      | none => editMoleculeBonds scale none mol
    let out : MolSystem := { molecules := mols, space := sys.space }
    (out, out)

/-- Spec-side (claim C1, amended): an atom index is a dummy for the `bond0`
property when its `element0` string contains "dummy". -/
def specIsDummy0 (atoms : List Atom) (i : Nat) : Bool :=
  match atoms.get? i with
  | some a => isDummyElem a.element0
  | none => false

/-- Spec-side (claim C1, amended): an atom index is a dummy for the `bond1`
property when its `element1` string contains "dummy" and its `element0`
string does not (the elif of lines 239-242). -/
def specIsDummy1 (atoms : List Atom) (i : Nat) : Bool :=
  match atoms.get? i with
  | some a => !isDummyElem a.element0 && isDummyElem a.element1
  | none => false

/-- Spec-side (claim C1, amended): a bond potential whose two atom indices
include a dummy atom (and, when a bonds list is given, whose index pair is
listed) has its equilibrium length multiplied by `scale` with the force
constant unchanged; every other potential is unchanged. -/
def specRescaleBondPot (scale : ℚ) (toIncl : Option (List (Nat × Nat)))
    (isDummy : Nat → Bool) (p : BondPotential) : BondPotential :=
  if (isDummy p.atom0 || isDummy p.atom1) &&
      (match toIncl with
       | some l => pairMem l p.atom0 p.atom1
       | none => true) then
    { p with r_eq := scale * p.r_eq }
  else p

/-- Spec-side (claim C1, amended): the rescaled system described by the
claim, built from the words of the claim over the same molecule data. -/
def specRescaleBondedDummies (sys : MolSystem) (scale : ℚ)
    (bonds : Option (List (String × List (Nat × Nat)))) : MolSystem :=
  let mols := sys.molecules.map fun mol =>
    match bonds with
    | some b =>
      match b.lookup mol.name with
      | none => mol
      | some [] => mol
      | some (x :: xs) =>
        { mol with
          bond0 := mol.bond0.map
            (specRescaleBondPot scale (some (x :: xs)) (specIsDummy0 mol.atoms))
          bond1 := mol.bond1.map
            (specRescaleBondPot scale (some (x :: xs)) (specIsDummy1 mol.atoms)) }
    | none =>
      { mol with
        bond0 := mol.bond0.map (specRescaleBondPot scale none (specIsDummy0 mol.atoms))
        bond1 := mol.bond1.map (specRescaleBondPot scale none (specIsDummy1 mol.atoms)) }
  { molecules := mols, space := sys.space }

/-- `centre` (biosimspacewrapper.py lines 17-61), modelled on the
axis-aligned bounding box of the system: takes the min/max coordinates (in angstrom, from
`system._getAABox()`) and the requested box length (a single length in nm, or
one per dimension).  Returns the new box length list, whether the
"Insufficient input box size" warning was issued, and the translation vector
applied to the system; the subsequent `resize` sets the space to ten times
the new box lengths. -/
def centre (minCoords maxCoords : List ℚ) (boxLen : ℚ ⊕ List ℚ) :
    List ℚ × Bool × List ℚ :=
  let cubic : Bool :=
    match boxLen with
    | .inl _ => true
    | .inr l =>
      match l with
      | [] => false
      | h :: t => t.all (fun z => z == h)
  let bl : List ℚ :=
    match boxLen with
    | .inl b => [b, b, b]
    | .inr l => l
  let difference := List.zipWith (fun a b => a - b) maxCoords minCoords
  let ctr := List.zipWith (fun a b => (a + b) / 2) minCoords maxCoords
  let raw := (difference.zip bl).map fun xy =>
    if xy.1 < 10 * xy.2 then xy.2 else xy.1 / 10 + 1
  let blNew := if cubic = true then [pyMax raw, pyMax raw, pyMax raw] else raw
  let warned : Bool := decide (blNew ≠ bl)
  let tvec := List.zipWith (fun c b => -c + 5 * b) ctr blNew
  (blNew, warned, tvec)

/-- An observable effect of the amber command-script generator
(src/ProtoCaller/Parametrise/amber.py): a `warnings.warn` call, an external
process invocation through `runexternal.runExternal`, a file written with its
lines, or a file-format conversion.  The conversion event is `Modelled from
the spec:` `babelwrapper.babelTransform` (called at amber.py line 88) is not
under src/, and the spec names antechamber, parmchk2 and tleap as the only
external chemistry executables shelled out to, so the babel step is modelled
as an in-process conversion rather than a process invocation. -/
inductive AmberEvent where
  | warn (msg : String)
  | run (proc cmd : String)
  | write (filename : String) (lines : List String)
  | convert (file toExt : String)
deriving DecidableEq

/-- The force-field parameters object (`ProtoCaller.Parametrise.Params`):
only the three force-field names used by `amberWrapper`. -/
structure Params where
  protein_ff : String
  water_ff : String
  ligand_ff : String
deriving DecidableEq

/-- The force-field name tables `_PC.AMBEROLDFFS`, `_PC.AMBERPROTEINFFS` and
`_PC.AMBERWATERFFS` consulted by `returnFFPath`; they live in
ProtoCaller/__init__.py, which is not under src/, so they are carried as
explicit data. -/
structure FFTables where
  oldffs : List String
  proteinffs : List String
  waterffs : List String
deriving DecidableEq

/-- Python `file.split(".")[-1]`: the suffix after the last dot (the whole
string when there is no dot). -/
def lastExt (s : String) : String :=
  String.mk ((s.data.reverse.takeWhile (fun c => c != '.')).reverse)

/-- Python `os.path.splitext(file)[0]`: everything before the last dot (the
whole string when there is no dot). -/
def splitExtBase (s : String) : String :=
  match s.splitOn "." with
  | [] => s
  | [_] => s
  | parts => String.intercalate "." parts.dropLast

/-- A single-quote character as a string, for the quoting inside the
antechamber and parmchk2 command lines. -/
def sQuote : String := String.singleton (Char.ofNat 39)

/-- A double-quote character as a string, for the quoting inside the tleap
script lines. -/
def dQuote : String := String.singleton (Char.ofNat 34)

/-- Whether a path string is absolute (starts with a slash). -/
def isAbsolutePathStr (s : String) : Bool :=
  match s.data with
  | c :: _ => c == '/'
  | [] => false

/-- `os.path.abspath`, modelled for a process whose working directory is
`cwd`: an absolute path is returned as is, a relative one is prefixed. -/
def absPath (cwd s : String) : String :=
  if isAbsolutePathStr s then s else cwd ++ "/" ++ s

/-- `returnFFPath` (amber.py lines 185-206). -/
def returnFFPath (tables : FFTables) (name : String) : String :=
  if name ∈ tables.oldffs then "oldff/leaprc." ++ name
  else if name ∈ tables.proteinffs then "leaprc.protein." ++ name
  else if name ∈ tables.waterffs then "leaprc.water." ++ name
  else "leaprc." ++ name

/-- The `-fi` input format passed to antechamber (amber.py lines 86-89): the
extension of the input file, replaced by "mol2" after the babel conversion of a
.mol/.sdf file. -/
def antechamberInputExt (file : String) : String :=
  let e := lastExt file
  if pyLower e = "mol" ∨ pyLower e = "sdf" then "mol2" else e

/-- The conversion events of `runAntechamber` (amber.py lines 87-89): a
.mol/.sdf input is first converted to mol2. -/
def antechamberConvEvents (file : String) : List AmberEvent :=
  let e := lastExt file
  if pyLower e = "mol" ∨ pyLower e = "sdf" then [AmberEvent.convert file "mol2"]
  else []

/-- The antechamber output file name (amber.py line 91):
`"%s_antechamber.%s" % (input_base, output_ext)`. -/
def antechamberOut (file outputExt : String) : String :=
  splitExtBase file ++ "_antechamber." ++ outputExt

/-- The antechamber command line (amber.py lines 93-96), with ` -nc <charge>`
appended when a net charge is given. -/
def antechamberCmd (ff file outputExt : String) (charge : Option ℤ) : String :=
  "antechamber -i " ++ sQuote ++ file ++ sQuote ++ " -fi " ++
    antechamberInputExt file ++ " -o " ++ sQuote ++ antechamberOut file outputExt ++
    sQuote ++ " -fo " ++ outputExt ++ " -c bcc -at " ++ ff ++ " -s 2" ++
    (match charge with
     | some c => " -nc " ++ toString c
     | none => "")

/-- `runAntechamber` (amber.py lines 66-100): returns the absolute path of
the parametrised output file and the events performed. -/
def runAntechamber (cwd ff file outputExt : String) (charge : Option ℤ) :
    String × List AmberEvent :=
  (absPath cwd (antechamberOut file outputExt),
   antechamberConvEvents file ++
     [AmberEvent.run "antechamber" (antechamberCmd ff file outputExt charge)])

/-- The parmchk2 command line (amber.py line 120).  `str.format` never
substitutes the trailing `%s` placeholder, so it stays literal and the
`force_field` argument is unused. -/
def parmchkCmd (file : String) : String :=
  let base := splitExtBase file
  let ext := lastExt file
  "parmchk2 -i " ++ sQuote ++ base ++ "." ++ ext ++ sQuote ++ " -f " ++ ext ++
    " -o " ++ sQuote ++ base ++ ".frcmod" ++ sQuote ++ " -s %s"

/-- `runParmchk` (amber.py lines 103-123): returns the absolute path of the
generated .frcmod parameter file and the process invocation. -/
def runParmchk (cwd file : String) : String × List AmberEvent :=
  (absPath cwd (splitExtBase file ++ ".frcmod"),
   [AmberEvent.run "parmchk2" (parmchkCmd file)])

/-- A `source "<path>"` line of the tleap script (amber.py line 157). -/
def tleapSourceLine (p : String) : String :=
  "source " ++ dQuote ++ p ++ dQuote

/-- The tleap load command chosen from the extension of a parameter file
(amber.py lines 160-169); `none` for an unrecognised extension, which is
warned about and skipped. -/
def tleapParamCmd (pf : String) : Option String :=
  let e := pyLower (lastExt pf)
  if e = "frcmod" ∨ e = "frcfld" then some "loadamberparams"
  else if e = "off" ∨ e = "lib" then some "loadoff"
  else if e = "prep" then some "loadamberprep"
  else none

/-- The script lines generated for the parameter files (amber.py line 170). -/
def tleapParamLines (pfs : List String) : List String :=
  pfs.filterMap fun pf =>
    (tleapParamCmd pf).map fun c => c ++ " " ++ dQuote ++ pf ++ dQuote

/-- The warnings issued for unrecognised parameter files (amber.py line 168). -/
def tleapParamWarns (pfs : List String) : List AmberEvent :=
  pfs.filterMap fun pf =>
    if (tleapParamCmd pf).isNone then
      some (AmberEvent.warn (pf ++ " is not a valid parameter file. Skipping value..."))
    else none

/-- The extension used in the tleap `load` command for a regular file
(amber.py lines 172-173): the file extension, with "pqr" mapped to "pdb". -/
def tleapLoadExt (f : String) : String :=
  let e := lastExt f
  if e = "pqr" then "pdb" else e

/-- A `MOL = load<ext> "<file>"` line of the tleap script (amber.py line 174). -/
def tleapLoadLine (f : String) : String :=
  "MOL = load" ++ tleapLoadExt f ++ " " ++ dQuote ++ f ++ dQuote

/-- A disulfide-bond line of the tleap script (amber.py line 176), from the
resSeq numbers of the two residues. -/
def tleapBondLine (p : ℤ × ℤ) : String :=
  "bond MOL." ++ toString p.1 ++ ".SG MOL." ++ toString p.2 ++ ".SG"

/-- The full tleap script written by `runTleap` (amber.py lines 155-179), one
list entry per written line. -/
def tleapScript (tables : FFTables) (ffs files pfs : List String) (idv : String)
    (dsb : List (ℤ × ℤ)) : List String :=
  ffs.map (fun ff => tleapSourceLine (returnFFPath tables ff)) ++
    tleapParamLines pfs ++ files.map tleapLoadLine ++ dsb.map tleapBondLine ++
    ["check MOL",
     "saveAmberParm MOL " ++ (idv ++ ".prmtop") ++ " " ++ (idv ++ ".inpcrd"),
     "quit"]

/-- `runTleap` (amber.py lines 126-182): writes the script, runs tleap on it,
and returns the absolute paths of the topology file and the coordinate file,
in that order, along with the events performed. -/
def runTleap (cwd : String) (tables : FFTables) (ffs files pfs : List String)
    (idv : String) (dsb : List (ℤ × ℤ)) : List String × List AmberEvent :=
  let filenameTleap := "tleap_script_" ++ idv ++ ".in"
  ([absPath cwd (idv ++ ".prmtop"), absPath cwd (idv ++ ".inpcrd")],
   tleapParamWarns pfs ++
     [AmberEvent.write filenameTleap (tleapScript tables ffs files pfs idv dsb),
      AmberEvent.run "tleap" ("tleap -f " ++ filenameTleap)])

/-- `amberWrapper` (amber.py lines 12-63).  `cofactorFiles` stands for the
result of the `glob.glob` over `_PC.HOMEDIR` shared cofactor parameters (an
environment lookup).  Returns `ValueError` for an unsupported molecule type;
`(none, warning)` for the two unsupported complex ion types (the bare Python
`return`); otherwise the parametrised file paths from `runTleap` together
with all events, in order. -/
def amberWrapper (cwd : String) (params : Params) (tables : FFTables)
    (cofactorFiles : List String) (filename moleculeType : String)
    (idArg : Option String) (charge : Option ℤ) :
    Except String (Option (List String) × List AmberEvent) :=
  let idv := idArg.getD moleculeType
  if moleculeType = "protein" then
    let r := runTleap cwd tables [params.protein_ff, params.water_ff] [filename] [] idv []
    .ok (some r.1, r.2)
  else if moleculeType = "water" ∨ moleculeType = "simple_anion" ∨
      moleculeType = "simple_cation" then
    let r := runTleap cwd tables [params.water_ff] [filename] [] idv []
    .ok (some r.1, r.2)
  else if moleculeType = "complex_anion" then
    .ok (none, [AmberEvent.warn "AMBER parametrisation failed: polyatomic anions not supported"])
  else if moleculeType = "complex_cation" then
    .ok (none, [AmberEvent.warn "AMBER parametrisation failed: transition metals not supported"])
  else if moleculeType = "cofactor" then
    let r := runTleap cwd tables [params.ligand_ff] [filename] cofactorFiles idv []
    .ok (some r.1, r.2)
  else if moleculeType = "ligand" then
    let a := runAntechamber cwd params.ligand_ff filename "mol2" charge
    let p := runParmchk cwd a.1
    let r := runTleap cwd tables [params.ligand_ff] [a.1] [p.1] idv []
    .ok (some r.1, a.2 ++ p.2 ++ r.2)
  else
    .error ("Value " ++ moleculeType ++ " for molecule_type not supported ")

/-- The external process invocations among a list of events, in order. -/
def runEvents (evs : List AmberEvent) : List (String × String) :=
  evs.filterMap fun e =>
    match e with
    | AmberEvent.run p c => some (p, c)
    | _ => none

/-- A concrete atom carrying every rescalable property, for evaluating the
rescaling routines. -/
def exAtomFull : Atom where
  element0 := "Carbon (C, 12.01 g mol-1)"
  element1 := "Carbon (C, 12.01 g mol-1)"
  atomtype := some "CA"
  atomtype0 := some "ca"
  atomtype1 := some "c3"
  lj := some ⟨3, 4⟩
  lj0 := some ⟨2, 6⟩
  lj1 := some ⟨1, 8⟩
  charge := some (1/2)
  charge0 := some (-1/4)
  charge1 := some 1

/-- A concrete atom with none of the guarded properties present. -/
def exAtomNone : Atom where
  element0 := "Carbon (C, 12.01 g mol-1)"
  element1 := "Carbon (C, 12.01 g mol-1)"
  atomtype := none
  atomtype0 := none
  atomtype1 := none
  lj := none
  lj0 := none
  lj1 := none
  charge := none
  charge0 := none
  charge1 := none

/-- A concrete ligand molecule with a dihedral term and a fully populated
atom. -/
def exMolFull : Molecule where
  name := "LIG"
  resname := "LIG"
  molCharge := 1/4
  atoms := [exAtomFull, exAtomNone]
  dihedral := some [⟨0, 1, 2, 3, 5⟩]
  dihedral0 := some []
  dihedral1 := none
  improper := some [⟨3, 2, 1, 0, 7⟩]
  improper0 := none
  improper1 := none
  bond0 := []
  bond1 := []

/-- A concrete one-molecule system around `exMolFull`. -/
def exSysFull : MolSystem := ⟨[exMolFull], (3, 3, 3)⟩

/-- A perturbed atom whose element strings contain "dummy" at both end
states; by the elif of lines 239-242 it is only ever collected into
`dummies0`. -/
def c1AtomDum : Atom where
  element0 := "dummy (Xx, 0.0 g mol-1)"
  element1 := "dummy (Xx, 0.0 g mol-1)"
  atomtype := none
  atomtype0 := none
  atomtype1 := none
  lj := none
  lj0 := none
  lj1 := none
  charge := none
  charge0 := none
  charge1 := none

/-- A perturbed molecule holding one harmonic bond 1 [r - 2]^2 between the
double-dummy atom `c1AtomDum` and the carbon atom `exAtomNone`, in both the
`bond0` and the `bond1` container. -/
def c1Mol : Molecule where
  name := "MOL"
  resname := "LIG"
  molCharge := 0
  atoms := [c1AtomDum, exAtomNone]
  dihedral := none
  dihedral0 := none
  dihedral1 := none
  improper := none
  improper0 := none
  improper1 := none
  bond0 := [⟨0, 1, 1, 2⟩]
  bond1 := [⟨0, 1, 1, 2⟩]

/-- A concrete one-molecule system around `c1Mol`. -/
def c1Sys : MolSystem := ⟨[c1Mol], (1, 1, 1)⟩

/-- Concrete force-field parameters for evaluating the amber wrapper. -/
def exParams : Params := ⟨"ff14SB", "tip3p", "gaff"⟩

/-- Concrete force-field tables for evaluating the amber wrapper. -/
def exTables : FFTables := ⟨["ff99"], ["ff14SB"], ["tip3p"]⟩

theorem editAtom_atomtype (scale : ℚ) (a : Atom) :
    (editAtom scale a).atomtype = a.atomtype.map (fun t => t ++ "_") := by
  unfold editAtom
  split <;> rfl

theorem editAtom_atomtype0 (scale : ℚ) (a : Atom) :
    (editAtom scale a).atomtype0 = a.atomtype0.map (fun t => t ++ "_") := by
  unfold editAtom
  split <;> rfl

theorem editAtom_atomtype1 (scale : ℚ) (a : Atom) :
    (editAtom scale a).atomtype1 = a.atomtype1.map (fun t => t ++ "_") := by
  unfold editAtom
  split <;> rfl

theorem editAtom_lj (scale : ℚ) (a : Atom) :
    (editAtom scale a).lj = if scale = 1 then a.lj
      else a.lj.map (fun l => { sigma := l.sigma, epsilon := l.epsilon * scale }) := by
  unfold editAtom
  by_cases h : scale = 1 <;> simp [h]

theorem editAtom_lj0 (scale : ℚ) (a : Atom) :
    (editAtom scale a).lj0 = if scale = 1 then a.lj0
      else a.lj0.map (fun l => { sigma := l.sigma, epsilon := l.epsilon * scale }) := by
  unfold editAtom
  by_cases h : scale = 1 <;> simp [h]

theorem editAtom_lj1 (scale : ℚ) (a : Atom) :
    (editAtom scale a).lj1 = if scale = 1 then a.lj1
      else a.lj1.map (fun l => { sigma := l.sigma, epsilon := l.epsilon * scale }) := by
  unfold editAtom
  by_cases h : scale = 1 <;> simp [h]

theorem editAtom_charge (scale : ℚ) (a : Atom) :
    (editAtom scale a).charge = if scale = 1 then a.charge
      else a.charge.map (fun c => c * scale) := by
  unfold editAtom
  by_cases h : scale = 1 <;> simp [h]

theorem editAtom_charge0 (scale : ℚ) (a : Atom) :
    (editAtom scale a).charge0 = if scale = 1 then a.charge0
      else a.charge0.map (fun c => c * scale) := by
  unfold editAtom
  by_cases h : scale = 1 <;> simp [h]

theorem editAtom_charge1 (scale : ℚ) (a : Atom) :
    (editAtom scale a).charge1 = if scale = 1 then a.charge1
      else a.charge1.map (fun c => c * scale) := by
  unfold editAtom
  by_cases h : scale = 1 <;> simp [h]

theorem editMolecule_atoms (scale : ℚ) (mol : Molecule) :
    (editMolecule scale mol).atoms = mol.atoms.map (editAtom scale) := by
  unfold editMolecule
  split <;> split <;> rfl

theorem editMolecule_dihedral (scale : ℚ) (mol : Molecule) :
    (editMolecule scale mol).dihedral = if scale = 1 then mol.dihedral
      else mol.dihedral.map (scaleFourAtom scale) := by
  unfold editMolecule
  by_cases h : scale = 1 <;> simp [h] <;> split <;> rfl

theorem editMolecule_dihedral0 (scale : ℚ) (mol : Molecule) :
    (editMolecule scale mol).dihedral0 = if scale = 1 then mol.dihedral0
      else mol.dihedral0.map (scaleFourAtom scale) := by
  unfold editMolecule
  by_cases h : scale = 1 <;> simp [h] <;> split <;> rfl

theorem editMolecule_dihedral1 (scale : ℚ) (mol : Molecule) :
    (editMolecule scale mol).dihedral1 = if scale = 1 then mol.dihedral1
      else mol.dihedral1.map (scaleFourAtom scale) := by
  unfold editMolecule
  by_cases h : scale = 1 <;> simp [h] <;> split <;> rfl

theorem editMolecule_improper (scale : ℚ) (mol : Molecule) :
    (editMolecule scale mol).improper = if scale = 1 then mol.improper
      else mol.improper.map (scaleFourAtom scale) := by
  unfold editMolecule
  by_cases h : scale = 1 <;> simp [h] <;> split <;> rfl

theorem editMolecule_improper0 (scale : ℚ) (mol : Molecule) :
    (editMolecule scale mol).improper0 = if scale = 1 then mol.improper0
      else mol.improper0.map (scaleFourAtom scale) := by
  unfold editMolecule
  by_cases h : scale = 1 <;> simp [h] <;> split <;> rfl

theorem editMolecule_improper1 (scale : ℚ) (mol : Molecule) :
    (editMolecule scale mol).improper1 = if scale = 1 then mol.improper1
      else mol.improper1.map (scaleFourAtom scale) := by
  unfold editMolecule
  by_cases h : scale = 1 <;> simp [h] <;> split <;> rfl

theorem editMolecule_resname (scale : ℚ) (mol : Molecule) :
    (editMolecule scale mol).resname =
      if pyLower mol.name = "na" ∨ pyLower mol.name = "cl"
      then mol.resname ++ "_" else mol.resname := by
  unfold editMolecule
  by_cases h : pyLower mol.name = "na" ∨ pyLower mol.name = "cl" <;>
    simp [h] <;> split <;> rfl

/-- C8: `rescaleBondedDummies` is the identity for scale = 1: for every
system and every bonds argument it returns the input system object unchanged
(both as its result and as the in-place view of the input), editing no
molecule. -/
theorem rescaleBondedDummies_scale_one_id (sys : MolSystem)
    (bonds : Option (List (String × List (Nat × Nat)))) :
    rescaleBondedDummies sys 1 bonds = (sys, sys) := by
  unfold rescaleBondedDummies
  simp

/-- C7: both rescaling routines commit their per-molecule edits back into the
molecule objects of the input system, so the edits seen through the returned new
system coincide with those seen through the (mutated) input system. -/
theorem rescale_commits_edits_in_place :
    (∀ sys scale incl excl neut out,
       rescaleSystemParams sys scale incl excl neut = Except.ok out →
       out.1 = out.2) ∧
    (∀ sys scale bonds,
       (rescaleBondedDummies sys scale bonds).1
         = (rescaleBondedDummies sys scale bonds).2) := by
  constructor
  · intro sys scale incl excl neut out h
    unfold rescaleSystemParams at h
    split at h
    · exact absurd h (by simp)
    · simp only [Except.ok.injEq] at h
      rw [← h]
  · intro sys scale bonds
    unfold rescaleBondedDummies
    split <;> rfl

/-- C7 witness: at the empty system the committed input view and the
returned system agree. -/
theorem rescale_commits_edits_in_place_witness :
    ((⟨[], (0, 0, 0)⟩, ⟨[], (0, 0, 0)⟩) : MolSystem × MolSystem).1
      = ((⟨[], (0, 0, 0)⟩, ⟨[], (0, 0, 0)⟩) : MolSystem × MolSystem).2 :=
  rescale_commits_edits_in_place.1 ⟨[], (0, 0, 0)⟩ 1 none none false
    (⟨[], (0, 0, 0)⟩, ⟨[], (0, 0, 0)⟩) rfl

/-- C3: `rescaleSystemParams` never fails on a missing property: whenever at
most one of the include/exclude lists is given it returns a system (the only
`ValueError` is for both lists being set), and a missing dihedral, atomtype,
LJ or charge property is skipped (stays missing) rather than raising. -/
theorem rescaleSystemParams_skips_missing_props :
    (∀ sys scale excl neut, ∃ out,
       rescaleSystemParams sys scale none excl neut = Except.ok out) ∧
    (∀ sys scale incl neut, ∃ out,
       rescaleSystemParams sys scale incl none neut = Except.ok out) ∧
    (∀ scale a, a.atomtype = none → (editAtom scale a).atomtype = none) ∧
    (∀ scale a, a.lj = none → (editAtom scale a).lj = none) ∧
    (∀ scale a, a.charge = none → (editAtom scale a).charge = none) ∧
    (∀ scale mol, mol.dihedral = none → (editMolecule scale mol).dihedral = none) := by
  refine ⟨?_, ?_, ?_, ?_, ?_, ?_⟩
  · intro sys scale excl neut
    unfold rescaleSystemParams
    simp
  · intro sys scale incl neut
    unfold rescaleSystemParams
    simp
  · intro scale a h
    rw [editAtom_atomtype, h]
    rfl
  · intro scale a h
    rw [editAtom_lj, h]
    split <;> rfl
  · intro scale a h
    rw [editAtom_charge, h]
    split <;> rfl
  · intro scale mol h
    rw [editMolecule_dihedral, h]
    split <;> rfl

/-- C3 witness: an atom with no properties is passed through unchanged. -/
theorem rescaleSystemParams_skips_missing_props_witness :
    exAtomNone.atomtype = none ∧ (editAtom 2 exAtomNone).atomtype = none :=
  ⟨rfl, rescaleSystemParams_skips_missing_props.2.2.1 2 exAtomNone rfl⟩

/-- C2: for a molecule selected for rescaling with scale different from 1,
every potential of each present dihedral/improper property is multiplied by
the scale, every present LJ property keeps sigma and has epsilon multiplied
by the scale, and every present charge property is multiplied by the
scale. -/
theorem rescaleSystemParams_scales_selected (scale : ℚ) (mol : Molecule)
    (h : scale ≠ 1) :
    (editMolecule scale mol).dihedral
        = mol.dihedral.map (fun ps => ps.map fun p => { p with func := p.func * scale }) ∧
    (editMolecule scale mol).dihedral0
        = mol.dihedral0.map (fun ps => ps.map fun p => { p with func := p.func * scale }) ∧
    (editMolecule scale mol).dihedral1
        = mol.dihedral1.map (fun ps => ps.map fun p => { p with func := p.func * scale }) ∧
    (editMolecule scale mol).improper
        = mol.improper.map (fun ps => ps.map fun p => { p with func := p.func * scale }) ∧
    (editMolecule scale mol).improper0
        = mol.improper0.map (fun ps => ps.map fun p => { p with func := p.func * scale }) ∧
    (editMolecule scale mol).improper1
        = mol.improper1.map (fun ps => ps.map fun p => { p with func := p.func * scale }) ∧
    (editMolecule scale mol).atoms.map Atom.lj
        = mol.atoms.map (fun a => a.lj.map fun l => { sigma := l.sigma, epsilon := l.epsilon * scale }) ∧
    (editMolecule scale mol).atoms.map Atom.lj0
        = mol.atoms.map (fun a => a.lj0.map fun l => { sigma := l.sigma, epsilon := l.epsilon * scale }) ∧
    (editMolecule scale mol).atoms.map Atom.lj1
        = mol.atoms.map (fun a => a.lj1.map fun l => { sigma := l.sigma, epsilon := l.epsilon * scale }) ∧
    (editMolecule scale mol).atoms.map Atom.charge
        = mol.atoms.map (fun a => a.charge.map fun c => c * scale) ∧
    (editMolecule scale mol).atoms.map Atom.charge0
        = mol.atoms.map (fun a => a.charge0.map fun c => c * scale) ∧
    (editMolecule scale mol).atoms.map Atom.charge1
        = mol.atoms.map (fun a => a.charge1.map fun c => c * scale) := by
  refine ⟨?_, ?_, ?_, ?_, ?_, ?_, ?_, ?_, ?_, ?_, ?_, ?_⟩
  · rw [editMolecule_dihedral, if_neg h]; rfl
  · rw [editMolecule_dihedral0, if_neg h]; rfl
  · rw [editMolecule_dihedral1, if_neg h]; rfl
  · rw [editMolecule_improper, if_neg h]; rfl
  · rw [editMolecule_improper0, if_neg h]; rfl
  · rw [editMolecule_improper1, if_neg h]; rfl
  · rw [editMolecule_atoms, List.map_map]
    congr 1
    funext a
    rw [Function.comp_apply, editAtom_lj, if_neg h]
  · rw [editMolecule_atoms, List.map_map]
    congr 1
    funext a
    rw [Function.comp_apply, editAtom_lj0, if_neg h]
  · rw [editMolecule_atoms, List.map_map]
    congr 1
    funext a
    rw [Function.comp_apply, editAtom_lj1, if_neg h]
  · rw [editMolecule_atoms, List.map_map]
    congr 1
    funext a
    rw [Function.comp_apply, editAtom_charge, if_neg h]
  · rw [editMolecule_atoms, List.map_map]
    congr 1
    funext a
    rw [Function.comp_apply, editAtom_charge0, if_neg h]
  · rw [editMolecule_atoms, List.map_map]
    congr 1
    funext a
    rw [Function.comp_apply, editAtom_charge1, if_neg h]

/-- C2 witness: at scale 2 the charges of a concrete molecule are doubled. -/
theorem rescaleSystemParams_scales_selected_witness :
    (2 : ℚ) ≠ 1 ∧
    (editMolecule 2 exMolFull).atoms.map Atom.charge
      = exMolFull.atoms.map (fun a => a.charge.map fun c => c * 2) :=
  ⟨by norm_num,
   (rescaleSystemParams_scales_selected 2 exMolFull (by norm_num)).2.2.2.2.2.2.2.2.2.1⟩

/-- C6: an edited molecule gets "_" appended to every present atomtype
property of every atom, and an edited molecule whose Sire name is Na or Cl
(case-insensitively) gets "_" appended to its residue name. -/
theorem rescaleSystemParams_renames_types_and_ions (scale : ℚ) (mol : Molecule) :
    (editMolecule scale mol).resname
        = (if pyLower mol.name = "na" ∨ pyLower mol.name = "cl"
           then mol.resname ++ "_" else mol.resname) ∧
    (editMolecule scale mol).atoms.map Atom.atomtype
        = mol.atoms.map (fun a => a.atomtype.map fun t => t ++ "_") ∧
    (editMolecule scale mol).atoms.map Atom.atomtype0
        = mol.atoms.map (fun a => a.atomtype0.map fun t => t ++ "_") ∧
    (editMolecule scale mol).atoms.map Atom.atomtype1
        = mol.atoms.map (fun a => a.atomtype1.map fun t => t ++ "_") := by
  refine ⟨editMolecule_resname scale mol, ?_, ?_, ?_⟩
  · rw [editMolecule_atoms, List.map_map]
    congr 1
    funext a
    rw [Function.comp_apply, editAtom_atomtype]
  · rw [editMolecule_atoms, List.map_map]
    congr 1
    funext a
    rw [Function.comp_apply, editAtom_atomtype0]
  · rw [editMolecule_atoms, List.map_map]
    congr 1
    funext a
    rw [Function.comp_apply, editAtom_atomtype1]

/-- C9: with scale = 1 `rescaleSystemParams` leaves every dihedral, improper,
LJ and charge value unchanged, yet still appends "_" to every present
atomtype property and renames Na/Cl residues, so on a concrete system the
returned molecules differ from the input molecules. -/
theorem rescaleSystemParams_scale_one_not_identity :
    (∀ mol : Molecule,
       (editMolecule 1 mol).dihedral = mol.dihedral ∧
       (editMolecule 1 mol).dihedral0 = mol.dihedral0 ∧
       (editMolecule 1 mol).dihedral1 = mol.dihedral1 ∧
       (editMolecule 1 mol).improper = mol.improper ∧
       (editMolecule 1 mol).improper0 = mol.improper0 ∧
       (editMolecule 1 mol).improper1 = mol.improper1 ∧
       (editMolecule 1 mol).atoms.map Atom.lj = mol.atoms.map Atom.lj ∧
       (editMolecule 1 mol).atoms.map Atom.charge = mol.atoms.map Atom.charge ∧
       (editMolecule 1 mol).atoms.map Atom.atomtype
         = mol.atoms.map (fun a => a.atomtype.map fun t => t ++ "_") ∧
       (editMolecule 1 mol).resname
         = (if pyLower mol.name = "na" ∨ pyLower mol.name = "cl"
            then mol.resname ++ "_" else mol.resname)) ∧
    (∃ out, rescaleSystemParams exSysFull 1 none none false = Except.ok out ∧
       out.1.molecules ≠ exSysFull.molecules) := by
  constructor
  · intro mol
    refine ⟨?_, ?_, ?_, ?_, ?_, ?_, ?_, ?_, ?_, ?_⟩
    · rw [editMolecule_dihedral, if_pos rfl]
    · rw [editMolecule_dihedral0, if_pos rfl]
    · rw [editMolecule_dihedral1, if_pos rfl]
    · rw [editMolecule_improper, if_pos rfl]
    · rw [editMolecule_improper0, if_pos rfl]
    · rw [editMolecule_improper1, if_pos rfl]
    · rw [editMolecule_atoms, List.map_map]
      congr 1
    · rw [editMolecule_atoms, List.map_map]
      congr 1
    · rw [editMolecule_atoms, List.map_map]
      congr 1
    · exact editMolecule_resname 1 mol
  · refine ⟨(⟨[editMolecule 1 exMolFull], (3, 3, 3)⟩,
       ⟨[editMolecule 1 exMolFull], (3, 3, 3)⟩), ?_, ?_⟩
    · unfold rescaleSystemParams
      simp [exSysFull, rescaleLoop, exMolFull]
    · intro h
      simp only [exSysFull, List.cons.injEq, and_true] at h
      have h2 := congrArg (fun m => m.atoms.map Atom.atomtype) h
      simp only [editMolecule_atoms, List.map_map] at h2
      simp [exMolFull, exAtomFull, exAtomNone, Function.comp, editAtom_atomtype] at h2

theorem dummyIdxs0_le {m x : Nat} {l : List Atom} (h : x ∈ dummyIdxs0 m l) : m ≤ x := by
  induction l generalizing m with
  | nil => simp [dummyIdxs0] at h
  | cons a rest ih =>
    unfold dummyIdxs0 at h
    rw [List.mem_append] at h
    rcases h with h | h
    · split at h
      · simp at h
        omega
      · simp at h
    · have := ih h
      omega

theorem dummyIdxs1_le {m x : Nat} {l : List Atom} (h : x ∈ dummyIdxs1 m l) : m ≤ x := by
  induction l generalizing m with
  | nil => simp [dummyIdxs1] at h
  | cons a rest ih =>
    unfold dummyIdxs1 at h
    rw [List.mem_append] at h
    rcases h with h | h
    · split at h
      · simp at h
        omega
      · simp at h
    · have := ih h
      omega

theorem mem_dummyIdxs0 (l : List Atom) (n j : Nat) :
    (n + j) ∈ dummyIdxs0 n l ↔ specIsDummy0 l j = true := by
  induction l generalizing n j with
  | nil => simp [dummyIdxs0, specIsDummy0]
  | cons a rest ih =>
    unfold dummyIdxs0
    rw [List.mem_append]
    cases j with
    | zero =>
      constructor
      · rintro (h | h)
        · split at h
          · simpa [specIsDummy0] using ‹isDummyElem a.element0 = true›
          · simp at h
        · exact absurd (dummyIdxs0_le h) (by omega)
      · intro h
        simp only [specIsDummy0, List.get?] at h
        left
        simp [h]
    | succ k =>
      have hrw : n + (k + 1) = (n + 1) + k := by omega
      rw [hrw, ih (n + 1) k]
      constructor
      · rintro (h | h)
        · split at h <;> simp at h
          omega
        · simpa [specIsDummy0, List.get?] using h
      · intro h
        right
        simpa [specIsDummy0, List.get?] using h

theorem mem_dummyIdxs1 (l : List Atom) (n j : Nat) :
    (n + j) ∈ dummyIdxs1 n l ↔ specIsDummy1 l j = true := by
  induction l generalizing n j with
  | nil => simp [dummyIdxs1, specIsDummy1]
  | cons a rest ih =>
    unfold dummyIdxs1
    rw [List.mem_append]
    cases j with
    | zero =>
      constructor
      · rintro (h | h)
        · split at h
          · simpa [specIsDummy1] using ‹(!isDummyElem a.element0 && isDummyElem a.element1) = true›
          · simp at h
        · exact absurd (dummyIdxs1_le h) (by omega)
      · intro h
        simp only [specIsDummy1, List.get?] at h
        left
        simp [h]
    | succ k =>
      have hrw : n + (k + 1) = (n + 1) + k := by omega
      rw [hrw, ih (n + 1) k]
      constructor
      · rintro (h | h)
        · split at h <;> simp at h
          omega
        · simpa [specIsDummy1, List.get?] using h
      · intro h
        right
        simpa [specIsDummy1, List.get?] using h

theorem rescaleBondPot_eq_spec_of (scale : ℚ) (toIncl : Option (List (Nat × Nat)))
    (ds : List Nat) (isD : Nat → Bool) (p : BondPotential)
    (hd : ∀ x, x ∈ ds ↔ isD x = true) :
    rescaleBondPot scale toIncl ds p = specRescaleBondPot scale toIncl isD p := by
  have h0 := hd p.atom0
  have h1 := hd p.atom1
  have hr : p.r_eq - (1 - scale) * p.r_eq = scale * p.r_eq := by ring
  unfold rescaleBondPot specRescaleBondPot
  rcases toIncl with _ | l
  · simp only [Bool.false_eq_true, if_false]
    by_cases hD : (isD p.atom0 || isD p.atom1) = true
    · rw [if_neg, if_pos (by simp [hD])]
      · rw [hr]
      · rcases Bool.or_eq_true_iff.mp hD with hx | hx
        · exact fun hc => hc.1 (h0.mpr hx)
        · exact fun hc => hc.2 (h1.mpr hx)
    · rw [if_pos, if_neg (by simp [hD])]
      simp only [Bool.or_eq_true_iff, not_or, Bool.not_eq_true] at hD
      exact ⟨fun hx => by simp [h0.mp hx] at hD, fun hx => by simp [h1.mp hx] at hD⟩
  · by_cases hpm : pairMem l p.atom0 p.atom1 = true
    · rw [if_neg (by simp [hpm])]
      by_cases hD : (isD p.atom0 || isD p.atom1) = true
      · rw [if_neg, if_pos (by simp [hD, hpm])]
        · rw [hr]
        · rcases Bool.or_eq_true_iff.mp hD with hx | hx
          · exact fun hc => hc.1 (h0.mpr hx)
          · exact fun hc => hc.2 (h1.mpr hx)
      · rw [if_pos, if_neg (by simp [hD])]
        simp only [Bool.or_eq_true_iff, not_or, Bool.not_eq_true] at hD
        exact ⟨fun hx => by simp [h0.mp hx] at hD, fun hx => by simp [h1.mp hx] at hD⟩
    · rw [if_pos (by simp [hpm]), if_neg (by simp [hpm])]

/-- C1 (amended): for scale different from 1, `rescaleBondedDummies` returns
exactly the system described by the claim: in every processed molecule, every
harmonic bond potential k [r - r_eq]^2 of the `bond0`/`bond1` properties whose
two atom indices include a dummy atom for that property (for `bond0` an atom
whose `element0` contains "dummy"; for `bond1` an atom whose `element1`
contains "dummy" and whose `element0` does not) and, when a bonds dictionary
is given, whose index pair is listed for the molecule, becomes
k [r - scale * r_eq]^2 with the force constant unchanged, while every other
bond potential and every other molecule is unchanged. -/
theorem rescaleBondedDummies_rescales_dummy_bonds (sys : MolSystem) (scale : ℚ)
    (bonds : Option (List (String × List (Nat × Nat)))) (h : scale ≠ 1) :
    (rescaleBondedDummies sys scale bonds).1 = specRescaleBondedDummies sys scale bonds := by
  unfold rescaleBondedDummies specRescaleBondedDummies
  rw [if_neg h]
  simp only
  congr 1
  congr 1
  funext mol
  have hd0 : ∀ x, x ∈ dummyIdxs0 0 mol.atoms ↔ specIsDummy0 mol.atoms x = true := by
    intro x
    simpa using mem_dummyIdxs0 mol.atoms 0 x
  have hd1 : ∀ x, x ∈ dummyIdxs1 0 mol.atoms ↔ specIsDummy1 mol.atoms x = true := by
    intro x
    simpa using mem_dummyIdxs1 mol.atoms 0 x
  have hedit : ∀ toIncl : Option (List (Nat × Nat)),
      editMoleculeBonds scale toIncl mol
        = { mol with
            bond0 := mol.bond0.map (specRescaleBondPot scale toIncl (specIsDummy0 mol.atoms))
            bond1 := mol.bond1.map (specRescaleBondPot scale toIncl (specIsDummy1 mol.atoms)) } := by
    intro toIncl
    unfold editMoleculeBonds
    congr 1
    · congr 1
      funext p
      exact rescaleBondPot_eq_spec_of scale toIncl _ _ p hd0
    · congr 1
      funext p
      exact rescaleBondPot_eq_spec_of scale toIncl _ _ p hd1
  rcases bonds with _ | b
  · exact hedit none
  · rcases hl : b.lookup mol.name with _ | ⟨_ | ⟨x, xs⟩⟩ <;> simp [hl, hedit]

/-- C1 counterexample: in the concrete system `c1Sys`, rescaled with scale 2
and no bonds dictionary, the `bond1` potential 1 [r - 2]^2 joins atom 0 -
whose `element1` string contains "dummy", so the claim requires the
equilibrium length to become 2 * 2 = 4 - with atom 1; but because
`element0` of atom 0 also contains "dummy", the elif of lines 239-242 keeps it out of
`dummies1` and the potential is returned with its equilibrium length still
2. -/
theorem rescaleBondedDummies_claim_counterexample :
    isDummyElem c1AtomDum.element1 = true ∧
    c1Mol.bond1 = [⟨0, 1, 1, 2⟩] ∧
    (rescaleBondedDummies c1Sys 2 none).1.molecules.map Molecule.bond1
      = [[⟨0, 1, 1, 2⟩]] ∧
    (2 : ℚ) * 2 ≠ 2 := by
  have hScale : (2 : ℚ) ≠ 1 := by norm_num
  have hd : isDummyElem "dummy (Xx, 0.0 g mol-1)" = true := by decide
  have hc : isDummyElem "Carbon (C, 12.01 g mol-1)" = false := by decide
  refine ⟨by decide, rfl, ?_, by norm_num⟩
  unfold rescaleBondedDummies
  rw [if_neg hScale]
  simp only [c1Sys, c1Mol, c1AtomDum, exAtomNone, List.map_cons, List.map_nil]
  simp [editMoleculeBonds, dummyIdxs1, hd, hc, rescaleBondPot]

/-- C1 witness for the amended theorem: at scale 2 on the concrete system the
code output matches the amended description. -/
theorem rescaleBondedDummies_rescales_dummy_bonds_witness :
    (2 : ℚ) ≠ 1 ∧
    (rescaleBondedDummies c1Sys 2 none).1 = specRescaleBondedDummies c1Sys 2 none :=
  ⟨by norm_num, rescaleBondedDummies_rescales_dummy_bonds c1Sys 2 none (by norm_num)⟩

/-- C5: the box computation of `centre`: each dimension in which the system
extent fits (strictly) inside the requested box keeps the requested length,
a dimension in which it does not fit is enlarged to the extent in nm plus 1;
for a cubic request every returned dimension is the maximum of the
per-dimension results; the warning is issued exactly when the returned box
differs from the requested one; and a scalar box length behaves as the
corresponding cubic triple. -/
theorem centre_box_behaviour (m0 m1 m2 M0 M1 M2 b0 b1 b2 : ℚ) :
    (¬(b1 = b0 ∧ b2 = b0) →
       (centre [m0, m1, m2] [M0, M1, M2] (Sum.inr [b0, b1, b2])).1
         = [if M0 - m0 < 10 * b0 then b0 else (M0 - m0) / 10 + 1,
            if M1 - m1 < 10 * b1 then b1 else (M1 - m1) / 10 + 1,
            if M2 - m2 < 10 * b2 then b2 else (M2 - m2) / 10 + 1]) ∧
    (b1 = b0 ∧ b2 = b0 →
       (centre [m0, m1, m2] [M0, M1, M2] (Sum.inr [b0, b1, b2])).1
         = [pyMax [if M0 - m0 < 10 * b0 then b0 else (M0 - m0) / 10 + 1,
                   if M1 - m1 < 10 * b1 then b1 else (M1 - m1) / 10 + 1,
                   if M2 - m2 < 10 * b2 then b2 else (M2 - m2) / 10 + 1],
            pyMax [if M0 - m0 < 10 * b0 then b0 else (M0 - m0) / 10 + 1,
                   if M1 - m1 < 10 * b1 then b1 else (M1 - m1) / 10 + 1,
                   if M2 - m2 < 10 * b2 then b2 else (M2 - m2) / 10 + 1],
            pyMax [if M0 - m0 < 10 * b0 then b0 else (M0 - m0) / 10 + 1,
                   if M1 - m1 < 10 * b1 then b1 else (M1 - m1) / 10 + 1,
                   if M2 - m2 < 10 * b2 then b2 else (M2 - m2) / 10 + 1]]) ∧
    ((centre [m0, m1, m2] [M0, M1, M2] (Sum.inr [b0, b1, b2])).2.1 = true ↔
       (centre [m0, m1, m2] [M0, M1, M2] (Sum.inr [b0, b1, b2])).1 ≠ [b0, b1, b2]) ∧
    centre [m0, m1, m2] [M0, M1, M2] (Sum.inl b0)
      = centre [m0, m1, m2] [M0, M1, M2] (Sum.inr [b0, b0, b0]) := by
  have hcu : ([b1, b2].all fun z => z == b0) = decide (b1 = b0 ∧ b2 = b0) := by
    by_cases h1 : b1 = b0 <;> by_cases h2 : b2 = b0 <;> simp [h1, h2]
  refine ⟨?_, ?_, ?_, ?_⟩
  · intro hc
    unfold centre
    simp [hcu, hc]
  · intro hc
    unfold centre
    simp [hcu, hc]
  · unfold centre
    simp [decide_eq_true_eq]
  · unfold centre
    simp

/-- C5 witness: a concrete non-cubic box request around a 20 x 30 x 40
angstrom system. -/
theorem centre_box_behaviour_witness :
    ¬((5 : ℚ) = 1 ∧ (2 : ℚ) = 1) ∧
    (centre [0, 0, 0] [20, 30, 40] (Sum.inr [1, 5, 2])).1
      = [if (20 : ℚ) - 0 < 10 * 1 then (1 : ℚ) else ((20 : ℚ) - 0) / 10 + 1,
         if (30 : ℚ) - 0 < 10 * 5 then (5 : ℚ) else ((30 : ℚ) - 0) / 10 + 1,
         if (40 : ℚ) - 0 < 10 * 2 then (2 : ℚ) else ((40 : ℚ) - 0) / 10 + 1] :=
  ⟨by norm_num, (centre_box_behaviour 0 0 0 20 30 40 1 5 2).1 (by norm_num)⟩

theorem strData_append (s t : String) : (s ++ t).data = s.data ++ t.data := by
  rfl

theorem strAppend_assoc (a b c : String) : a ++ b ++ c = a ++ (b ++ c) := by
  obtain ⟨x⟩ := a
  obtain ⟨y⟩ := b
  obtain ⟨z⟩ := c
  show String.mk (x ++ y ++ z) = String.mk (x ++ (y ++ z))
  rw [List.append_assoc]

theorem lastExt_dot_frcmod (s : String) : lastExt (s ++ ".frcmod") = "frcmod" := by
  unfold lastExt
  rw [strData_append]
  have hd : (".frcmod" : String).data = ['.', 'f', 'r', 'c', 'm', 'o', 'd'] := by decide
  rw [hd, List.reverse_append]
  have hr : (['.', 'f', 'r', 'c', 'm', 'o', 'd'] : List Char).reverse
      = ['d', 'o', 'm', 'c', 'r', 'f', '.'] := by decide
  rw [hr]
  simp [List.takeWhile]

theorem lastExt_dot_mol2 (s : String) : lastExt (s ++ ".mol2") = "mol2" := by
  unfold lastExt
  rw [strData_append]
  have hd : (".mol2" : String).data = ['.', 'm', 'o', 'l', '2'] := by decide
  rw [hd, List.reverse_append]
  have hr : (['.', 'm', 'o', 'l', '2'] : List Char).reverse
      = ['2', 'l', 'o', 'm', '.'] := by decide
  rw [hr]
  simp [List.takeWhile]

theorem absPath_dot_frcmod (cwd s : String) :
    lastExt (absPath cwd (s ++ ".frcmod")) = "frcmod" := by
  unfold absPath
  split
  · exact lastExt_dot_frcmod s
  · rw [← strAppend_assoc]
    exact lastExt_dot_frcmod (cwd ++ "/" ++ s)

theorem antechamberOut_mol2 (file : String) :
    antechamberOut file "mol2" = (splitExtBase file ++ "_antechamber") ++ ".mol2" := by
  unfold antechamberOut
  rw [strAppend_assoc, strAppend_assoc]
  congr 1

theorem absPath_antechamberOut_mol2 (cwd file : String) :
    lastExt (absPath cwd (antechamberOut file "mol2")) = "mol2" := by
  rw [antechamberOut_mol2]
  unfold absPath
  split
  · exact lastExt_dot_mol2 _
  · rw [← strAppend_assoc]
    exact lastExt_dot_mol2 _

theorem tleapParamCmd_frcmod (cwd s : String) :
    tleapParamCmd (absPath cwd (s ++ ".frcmod")) = some "loadamberparams" := by
  unfold tleapParamCmd
  rw [absPath_dot_frcmod]
  have hl : pyLower "frcmod" = "frcmod" := by decide
  rw [hl]
  rw [if_pos (Or.inl rfl)]

theorem tleapLoadExt_antechamber (cwd file : String) :
    tleapLoadExt (absPath cwd (antechamberOut file "mol2")) = "mol2" := by
  unfold tleapLoadExt
  rw [absPath_antechamberOut_mol2]
  decide

theorem runEvents_convEvents (file : String) :
    runEvents (antechamberConvEvents file) = [] := by
  unfold antechamberConvEvents runEvents
  by_cases h : pyLower (lastExt file) = "mol" ∨ pyLower (lastExt file) = "sdf" <;> simp [h]

/-- C4: for molecule_type "ligand", `amberWrapper` invokes exactly
antechamber (on the input file), parmchk2 (on the file antechamber produced)
and tleap (on a generated script), in that order; the script sources the
ligand force field, loads the parmchk2 parameter file and the antechamber
output file, and saves "id.prmtop" and "id.inpcrd"; and the returned files
are the absolute paths of the topology file and the coordinate file, in that
order. -/
theorem amberWrapper_ligand_pipeline (cwd : String) (params : Params)
    (tables : FFTables) (cofactorFiles : List String) (filename idv : String)
    (charge : Option ℤ) :
    ∃ evs script,
      amberWrapper cwd params tables cofactorFiles filename "ligand" (some idv) charge
        = Except.ok
            (some [absPath cwd (idv ++ ".prmtop"), absPath cwd (idv ++ ".inpcrd")], evs) ∧
      runEvents evs
        = [("antechamber", antechamberCmd params.ligand_ff filename "mol2" charge),
           ("parmchk2", parmchkCmd (absPath cwd (antechamberOut filename "mol2"))),
           ("tleap", "tleap -f " ++ ("tleap_script_" ++ idv ++ ".in"))] ∧
      AmberEvent.write ("tleap_script_" ++ idv ++ ".in") script ∈ evs ∧
      tleapSourceLine (returnFFPath tables params.ligand_ff) ∈ script ∧
      ("loadamberparams" ++ " " ++ dQuote ++
          absPath cwd
            (splitExtBase (absPath cwd (antechamberOut filename "mol2")) ++ ".frcmod") ++
          dQuote) ∈ script ∧
      ("MOL = load" ++ "mol2" ++ " " ++ dQuote ++
          absPath cwd (antechamberOut filename "mol2") ++ dQuote) ∈ script ∧
      ("saveAmberParm MOL " ++ (idv ++ ".prmtop") ++ " " ++ (idv ++ ".inpcrd")) ∈ script := by
  have hpc : tleapParamCmd
      (absPath cwd (splitExtBase (absPath cwd (antechamberOut filename "mol2")) ++ ".frcmod"))
        = some "loadamberparams" := tleapParamCmd_frcmod cwd _
  have hle : tleapLoadExt (absPath cwd (antechamberOut filename "mol2")) = "mol2" :=
    tleapLoadExt_antechamber cwd filename
  refine ⟨antechamberConvEvents filename ++
      [AmberEvent.run "antechamber" (antechamberCmd params.ligand_ff filename "mol2" charge)] ++
      [AmberEvent.run "parmchk2" (parmchkCmd (absPath cwd (antechamberOut filename "mol2")))] ++
      (tleapParamWarns
          [absPath cwd
            (splitExtBase (absPath cwd (antechamberOut filename "mol2")) ++ ".frcmod")] ++
        [AmberEvent.write ("tleap_script_" ++ idv ++ ".in")
          (tleapScript tables [params.ligand_ff]
            [absPath cwd (antechamberOut filename "mol2")]
            [absPath cwd
              (splitExtBase (absPath cwd (antechamberOut filename "mol2")) ++ ".frcmod")]
            idv []),
         AmberEvent.run "tleap" ("tleap -f " ++ ("tleap_script_" ++ idv ++ ".in"))]),
      tleapScript tables [params.ligand_ff]
        [absPath cwd (antechamberOut filename "mol2")]
        [absPath cwd
          (splitExtBase (absPath cwd (antechamberOut filename "mol2")) ++ ".frcmod")]
        idv [],
      ?_, ?_, ?_, ?_, ?_, ?_, ?_⟩
  · simp [amberWrapper, runAntechamber, runParmchk, runTleap]
  · simp [runEvents, List.filterMap_append, runEvents_convEvents, tleapParamWarns, hpc]
    intro a ha
    unfold antechamberConvEvents at ha
    by_cases h : pyLower (lastExt filename) = "mol" ∨ pyLower (lastExt filename) = "sdf" <;>
      simp [h] at ha
    simp [ha]
  · simp
  · simp [tleapScript]
  · simp [tleapScript, tleapParamLines, hpc]
  · simp [tleapScript, tleapLoadLine, hle]
  · simp [tleapScript]

theorem runEvents_append (l1 l2 : List AmberEvent) :
    runEvents (l1 ++ l2) = runEvents l1 ++ runEvents l2 := by
  unfold runEvents
  exact List.filterMap_append l1 l2 _

theorem tleap_run_mem (cwd : String) (tables : FFTables) (ffs files pfs : List String)
    (idv : String) (dsb : List (ℤ × ℤ)) :
    ("tleap", "tleap -f " ++ ("tleap_script_" ++ idv ++ ".in"))
      ∈ runEvents (runTleap cwd tables ffs files pfs idv dsb).2 := by
  unfold runTleap runEvents
  simp [List.filterMap_append]

/-- C10: `amberWrapper` warns and returns no files for the two unsupported
complex ion types, raises `ValueError` for any molecule type outside the
eight supported strings, and for every other supported type proceeds to run
tleap. -/
theorem amberWrapper_type_dispatch (cwd : String) (params : Params)
    (tables : FFTables) (cofactorFiles : List String) (filename : String)
    (idArg : Option String) (charge : Option ℤ) :
    amberWrapper cwd params tables cofactorFiles filename "complex_anion" idArg charge
      = Except.ok
          (none, [AmberEvent.warn "AMBER parametrisation failed: polyatomic anions not supported"]) ∧
    amberWrapper cwd params tables cofactorFiles filename "complex_cation" idArg charge
      = Except.ok
          (none, [AmberEvent.warn "AMBER parametrisation failed: transition metals not supported"]) ∧
    (∀ mt : String,
       mt ∉ ["protein", "ligand", "cofactor", "water", "simple_anion", "complex_anion",
             "simple_cation", "complex_cation"] →
       amberWrapper cwd params tables cofactorFiles filename mt idArg charge
         = Except.error ("Value " ++ mt ++ " for molecule_type not supported ")) ∧
    (∀ mt ∈ ["protein", "water", "simple_anion", "simple_cation", "cofactor", "ligand"],
       ∃ fs evs,
         amberWrapper cwd params tables cofactorFiles filename mt idArg charge
           = Except.ok (some fs, evs) ∧
         ∃ c, ("tleap", c) ∈ runEvents evs) := by
  refine ⟨by simp [amberWrapper], by simp [amberWrapper], ?_, ?_⟩
  · intro mt hmt
    simp only [List.mem_cons, List.not_mem_nil, or_false, not_or] at hmt
    obtain ⟨h1, h2, h3, h4, h5, h6, h7, h8⟩ := hmt
    simp [amberWrapper, h1, h2, h3, h4, h5, h6, h7, h8]
  · intro mt hmt
    simp only [List.mem_cons, List.not_mem_nil, or_false] at hmt
    rcases hmt with rfl | rfl | rfl | rfl | rfl | rfl
    · exact ⟨(runTleap cwd tables [params.protein_ff, params.water_ff] [filename] []
          (idArg.getD "protein") []).1,
        (runTleap cwd tables [params.protein_ff, params.water_ff] [filename] []
          (idArg.getD "protein") []).2,
        by simp [amberWrapper], _, tleap_run_mem cwd tables _ _ _ _ _⟩
    · exact ⟨(runTleap cwd tables [params.water_ff] [filename] [] (idArg.getD "water") []).1,
        (runTleap cwd tables [params.water_ff] [filename] [] (idArg.getD "water") []).2,
        by simp [amberWrapper], _, tleap_run_mem cwd tables _ _ _ _ _⟩
    · exact ⟨(runTleap cwd tables [params.water_ff] [filename] [] (idArg.getD "simple_anion") []).1,
        (runTleap cwd tables [params.water_ff] [filename] [] (idArg.getD "simple_anion") []).2,
        by simp [amberWrapper], _, tleap_run_mem cwd tables _ _ _ _ _⟩
    · exact ⟨(runTleap cwd tables [params.water_ff] [filename] [] (idArg.getD "simple_cation") []).1,
        (runTleap cwd tables [params.water_ff] [filename] [] (idArg.getD "simple_cation") []).2,
        by simp [amberWrapper], _, tleap_run_mem cwd tables _ _ _ _ _⟩
    · exact ⟨(runTleap cwd tables [params.ligand_ff] [filename] cofactorFiles
          (idArg.getD "cofactor") []).1,
        (runTleap cwd tables [params.ligand_ff] [filename] cofactorFiles
          (idArg.getD "cofactor") []).2,
        by simp [amberWrapper], _, tleap_run_mem cwd tables _ _ _ _ _⟩
    · refine ⟨(runTleap cwd tables [params.ligand_ff]
          [(runAntechamber cwd params.ligand_ff filename "mol2" charge).1]
          [(runParmchk cwd (runAntechamber cwd params.ligand_ff filename "mol2" charge).1).1]
          (idArg.getD "ligand") []).1,
        (runAntechamber cwd params.ligand_ff filename "mol2" charge).2 ++
          (runParmchk cwd (runAntechamber cwd params.ligand_ff filename "mol2" charge).1).2 ++
          (runTleap cwd tables [params.ligand_ff]
            [(runAntechamber cwd params.ligand_ff filename "mol2" charge).1]
            [(runParmchk cwd (runAntechamber cwd params.ligand_ff filename "mol2" charge).1).1]
            (idArg.getD "ligand") []).2,
        by simp [amberWrapper],
        "tleap -f " ++ ("tleap_script_" ++ idArg.getD "ligand" ++ ".in"), ?_⟩
      rw [runEvents_append]
      exact List.mem_append_right _ (tleap_run_mem cwd tables _ _ _ _ _)

/-- C10 witness: the unsupported molecule type "banana" raises the
ValueError. -/
theorem amberWrapper_type_dispatch_witness :
    "banana" ∉ ["protein", "ligand", "cofactor", "water", "simple_anion",
        "complex_anion", "simple_cation", "complex_cation"] ∧
    amberWrapper "/work" exParams exTables [] "lig.mol2" "banana" none none
      = Except.error ("Value " ++ "banana" ++ " for molecule_type not supported ") :=
  ⟨by decide,
   (amberWrapper_type_dispatch "/work" exParams exTables [] "lig.mol2" none none).2.2.1
     "banana" (by decide)⟩
